import Mathlib

/-!
Shallow embedding of `pyalgotrade/bitstamp/client.py`.

The embedding models the `Client` class (dispatch loop, connection
lifecycle, reconnection policy), the `WSClient.onDisconnectionDetected`
callback, and the `HTTPClient._post` / `cancelOrder` REST path.

Concurrency is modelled by making the environment explicit: the worker
thread's pushes onto the event queue appear as per-iteration push lists
(`InitEnv.steps`, exhaustion of the list modelling the death of the
worker thread), a concurrent `stop()` during a reconnection attempt
appears as the `Attempt.stopSignal` flag observed at the loop boundary,
and exceptions raised by collaborators appear as explicit `Bool`
parameters (`connectThrows`, `raises`). Python exceptions are modelled
with `Except`; state mutation is explicit state passing. `time.sleep(5)`
calls are counted (in seconds) by the reconnection loop's result.
-/

namespace Bitstamp

/-- WSClient.ON_TRADE event tag. -/
def ON_TRADE : Nat := 1

/-- WSClient.ON_ORDER_BOOK_UPDATE event tag. -/
def ON_ORDER_BOOK_UPDATE : Nat := 2

/-- WSClient.ON_CONNECTED event tag. -/
def ON_CONNECTED : Nat := 3

/-- WSClient.ON_DISCONNECTED event tag. -/
def ON_DISCONNECTED : Nat := 4

/-- One tagged event on the WSClient queue: the `(eventType, eventData)`
pair put by the worker. Payloads are opaque; `none` models Python `None`
(the payload of Connected/Disconnected events). -/
structure Event where
  eventType : Nat
  eventData : Option Nat
deriving DecidableEq, Repr

/-- State of a `Client` instance: its fields from `Client.__init__`,
plus `threadAlive` (whether `self.__thread.is_alive()` would return
True) and the queue of the current `WSClient` (its only state here).
`trades` and `orderBooks` log the payloads emitted to the
`__tradeEvent` / `__orderBookUpdateEvent` subscribers, in order. -/
structure ClientState where
  threadExists : Bool
  threadAlive : Bool
  initializationOk : Option Bool
  hasWsClient : Bool
  queue : List Event
  enableReconnection : Bool
  stopped : Bool
  trades : List (Option Nat)
  orderBooks : List (Option Nat)
deriving DecidableEq, Repr

/-- Client.__init__: thread None, initializationOk None, wsClient None,
enableReconnection False, stopped False, fresh subscriber events. -/
def newClient : ClientState :=
  { threadExists := false
    threadAlive := false
    initializationOk := none
    hasWsClient := false
    queue := []
    enableReconnection := false
    stopped := false
    trades := []
    orderBooks := [] }

/-- Client.__onConnected: records that initialization succeeded. -/
def onConnected (s : ClientState) : ClientState :=
  { s with initializationOk := some true }

/-- Client.__dispatchImpl specialized to `eventFilter = [ON_CONNECTED]`,
the only filtered form the source uses (inside `__initializeClient`).
Pops at most one event; a popped event whose type is filtered out is
consumed and the call returns False; a Connected event runs
`__onConnected`. The agreement of this specialization with the general
`dispatchImpl` below is proved in `dispatchImpl_connected_only`. -/
def dispatchConnectedOnly (s : ClientState) : Bool × ClientState :=
  match s.queue with
  | [] => (false, s)
  | e :: rest =>
    let s1 := { s with queue := rest }
    if e.eventType ∈ [ON_CONNECTED] then (true, onConnected s1)
    else (false, s1)

/-- Environment of one `Client.__initializeClient` call: whether
`self.__wsClient.connect()` raises, and — when it does not — the lists
of events the new worker thread pushes before each iteration of the
wait loop. Exhaustion of `steps` models the worker thread dying
(`self.__thread.is_alive()` turning False). -/
structure InitEnv where
  connectThrows : Bool
  steps : List (List Event)

/-- Wait loop of `Client.__initializeClient`:
`while self.__initializationOk is None and self.__thread.is_alive():
self.__dispatchImpl([WSClient.ON_CONNECTED])`. Each iteration first
appends the worker's pushes for that iteration to the queue, then runs
one filtered dispatch. -/
def waitLoop (s : ClientState) : List (List Event) → ClientState
  | [] =>
    if s.initializationOk ≠ none then s
    else { s with threadAlive := false }
  | pushes :: rest =>
    if s.initializationOk ≠ none then s
    else waitLoop (dispatchConnectedOnly { s with queue := s.queue ++ pushes }).2 rest

/-- Client.__initializeClient: reset `initializationOk` to None, set
`self.__thread = None`, create a fresh `WSClient` (fresh empty queue),
call `connect()`. If `connect()` raises, `initializationOk` becomes
False and the thread stays None; otherwise the worker thread is created
and started and the caller blocks in the wait loop. Returns the final
state together with the returned `self.__initializationOk`. -/
def initializeClient (s : ClientState) (env : InitEnv) : ClientState × Option Bool :=
  let s0 := { s with initializationOk := none }
  if env.connectThrows then
    let s1 := { s0 with threadExists := false, threadAlive := false,
                        hasWsClient := true, queue := [],
                        initializationOk := some false }
    (s1, some false)
  else
    let s1 := { s0 with hasWsClient := true, queue := [],
                        threadExists := true, threadAlive := true }
    let s2 := waitLoop s1 env.steps
    (s2, s2.initializationOk)

/-- Environment of one iteration of the reconnection retry loop: whether
a concurrent `stop()` ran during this attempt or the sleep after it
(observed at the next loop boundary), and the `InitEnv` data of the
`__initializeClient` call the iteration makes. -/
structure Attempt where
  stopSignal : Bool
  connectThrows : Bool
  steps : List (List Event)

/-- State after one reconnection attempt, with a concurrent `stop()`'s
flag write (if one ran during the attempt or the sleep after it)
applied: `stop` sets the flag whenever it runs; the loop only reads it
at the next boundary. -/
def applySignal (a : Attempt) (s : ClientState) : ClientState :=
  if a.stopSignal then { s with stopped := true } else s

/-- Retry loop of `Client.__onDisconnected` when reconnection is
enabled: `while not self.__stopped and not initialized: initialized =
self.__initializeClient(); if not initialized: time.sleep(5)`. The
attempt list is the modelled fuel: `none` means the loop was still
running when the modelled environment ran out (the real loop has no
retry bound). On exit, returns the state and the total seconds slept. -/
def reconnectLoop : ClientState → List Attempt → Option (ClientState × Nat)
  | s, [] => if s.stopped then some (s, 0) else none
  | s, a :: rest =>
    if s.stopped then some (s, 0)
    else if (initializeClient s ⟨a.connectThrows, a.steps⟩).2 = some true then
      some (applySignal a (initializeClient s ⟨a.connectThrows, a.steps⟩).1, 0)
    else
      match reconnectLoop (applySignal a (initializeClient s ⟨a.connectThrows, a.steps⟩).1) rest with
      | none => none
      | some q => some (q.1, q.2 + 5)

/-- Client.__onDisconnected: with reconnection enabled, run the retry
loop; otherwise `self.__stopped = True`. -/
def onDisconnected (s : ClientState) (atts : List Attempt) : Option (ClientState × Nat) :=
  if s.enableReconnection then reconnectLoop s atts
  else some ({ s with stopped := true }, 0)

/-- Handler cascade of `Client.__dispatchImpl` after the filter check:
`ret = True` then route on the event type; an unrecognized type logs an
error and sets `ret = False`. `s1` is the state after the pop. -/
def routeEvent (e : Event) (s1 : ClientState) (atts : List Attempt) :
    Option (Bool × ClientState) :=
  if e.eventType = ON_TRADE then
    some (true, { s1 with trades := s1.trades ++ [e.eventData] })
  else if e.eventType = ON_ORDER_BOOK_UPDATE then
    some (true, { s1 with orderBooks := s1.orderBooks ++ [e.eventData] })
  else if e.eventType = ON_CONNECTED then
    some (true, onConnected s1)
  else if e.eventType = ON_DISCONNECTED then
    match onDisconnected s1 atts with
    | none => none
    | some q => some (true, q.1)
  else
    some (false, s1)

/-- Client.__dispatchImpl: pop at most one event from the wsClient queue
with the bounded wait (an empty queue models `Queue.Empty`, returning
False). A popped event not in a supplied filter is consumed and the
call returns False; otherwise the event is routed. `none` means a
reconnection handler was still running when the modelled attempt list
ran out. -/
def dispatchImpl (eventFilter : Option (List Nat)) (s : ClientState)
    (atts : List Attempt) : Option (Bool × ClientState) :=
  match s.queue with
  | [] => some (false, s)
  | e :: rest =>
    let s1 := { s with queue := rest }
    match eventFilter with
    | some f =>
      if e.eventType ∈ f then routeEvent e s1 atts
      else some (false, s1)
    | none => routeEvent e s1 atts

/-- Client.dispatch: `self.__dispatchImpl(None)`. -/
def dispatch (s : ClientState) (atts : List Attempt) : Option (Bool × ClientState) :=
  dispatchImpl none s atts

/-- Exceptions `Client.start` can raise. -/
inductive StartError where
  | alreadyRunning
  | initializationFailed
deriving DecidableEq, Repr

/-- Client.start: raise "Already running" if a thread exists (with no
state change), else run `__initializeClient`; on a falsy result set
`self.__stopped = True` and raise "Initialization failed". -/
def start (s : ClientState) (env : InitEnv) : ClientState × Option StartError :=
  if s.threadExists then (s, some StartError.alreadyRunning)
  else
    let p := initializeClient s env
    if p.2 = some true then (p.1, none)
    else ({ p.1 with stopped := true }, some StartError.initializationFailed)

/-- WSClient.stopClient (and `self.__wsClient.stopClient()` as called
from `Client.stop`): the shutdown request to the worker, which may
raise. -/
def stopClientCall (raises : Bool) : Except String Unit :=
  if raises then Except.error "error shutting down client" else Except.ok ()

/-- Body of the `try` block of `Client.stop`: set `self.__stopped =
True` first, then, if a live thread exists, request the worker to close.
An error carries the state at the point of the raise (the mutations made
before it persist). -/
def stopBody (s : ClientState) (raises : Bool) : Except (String × ClientState) ClientState :=
  let s1 := { s with stopped := true }
  if s1.threadExists && s1.threadAlive then
    match stopClientCall raises with
    | Except.error e => Except.error (e, s1)
    | Except.ok _ => Except.ok s1
  else Except.ok s1

/-- Client.stop: run the body; any exception is logged and swallowed. -/
def stop (s : ClientState) (raises : Bool) : ClientState :=
  match stopBody s raises with
  | Except.ok s1 => s1
  | Except.error p => p.2

/-- Primitive actions of `Client.stop`, in order, for the ordering
guarantee (the flag is set before the shutdown request). -/
inductive StopAction where
  | setStopped
  | requestClose
deriving DecidableEq, Repr

/-- Trace of primitive actions `Client.stop` performs on state `s`. -/
def stopActions (s : ClientState) : List StopAction :=
  StopAction.setStopped ::
    (if s.threadExists && s.threadAlive then [StopAction.requestClose] else [])

/-- Client.join: blocks until the worker thread exits; no state change. -/
def join (s : ClientState) : ClientState := s

/-- Client.eof: `return self.__stopped`. -/
def eof (s : ClientState) : Bool := s.stopped

/-- Client.peekDateTime: always None (realtime subject). -/
def peekDateTime (_s : ClientState) : Option Nat := none

/-- WSClient.onDisconnectionDetected acting on the worker's queue: a
best-effort `self.stopClient()` whose exception is caught and logged,
then unconditionally `self.__queue.put((WSClient.ON_DISCONNECTED,
None))`. -/
def onDisconnectionDetected (q : List Event) (raises : Bool) : List Event :=
  match stopClientCall raises with
  | Except.error _ => q ++ [⟨ON_DISCONNECTED, none⟩]
  | Except.ok _ => q ++ [⟨ON_DISCONNECTED, none⟩]

/-- JSON value as decoded by `json.loads`: Python None, bool, int,
string, list or dict. -/
inductive JValue where
  | jnull
  | jbool (b : Bool)
  | jint (n : Int)
  | jstr (s : String)
  | jlist (xs : List JValue)
  | jdict (entries : List (String × JValue))

/-- Python `dict.get(key)` on a decoded JSON object: the stored value,
or `none` when the key is absent. -/
def jsonGet : List (String × JValue) → String → Option JValue
  | [], _ => none
  | (k, v) :: rest, key => if k = key then some v else jsonGet rest key

/-- Python `x is not None` for the result of `dict.get("error")`: a
stored JSON null decodes to Python None, so it does not count. -/
def pyIsNotNone : Option JValue → Bool
  | none => false
  | some JValue.jnull => false
  | some _ => true

/-- Python `x != True`, negated: `True == 1` in Python, so the booleans
and integers equal to 1 compare equal to True. -/
def pythonEqTrue : JValue → Bool
  | JValue.jbool b => b
  | JValue.jint n => n == 1
  | _ => false

/-- Error-checking tail of `HTTPClient._post`, applied to the decoded
JSON response: if the response is a dict whose "error" entry is not
None, raise `Exception(error)`; otherwise return the response. (The
request building and transport are external collaborators; the response
is the model's input.) -/
def post (response : JValue) : Except String JValue :=
  match response with
  | JValue.jdict entries =>
    if pyIsNotNone (jsonGet entries "error") then Except.error "server error"
    else Except.ok response
  | _ => Except.ok response

/-- HTTPClient.cancelOrder: perform the POST; raise "Failed to cancel
order" unless the response equals True (in Python's equality). -/
def cancelOrder (response : JValue) : Except String Unit :=
  match post response with
  | Except.error e => Except.error e
  | Except.ok j =>
    if pythonEqTrue j then Except.ok ()
    else Except.error "Failed to cancel order"

/-- No event of the list is a Connected event. -/
def noConnected (es : List Event) : Prop := ∀ e ∈ es, e.eventType ≠ ON_CONNECTED

/-- Outcome of one reconnection attempt's `__initializeClient` call,
computed from the attempt's environment alone (it is independent of the
client state, see `initializeClient_snd_congr`). -/
def attemptResult (a : Attempt) : Option Bool :=
  (initializeClient newClient ⟨a.connectThrows, a.steps⟩).2

/-- A stopped client holding one still-queued Trade event: the state a
real run reaches when `stop()` is called while a trade is in flight. -/
def exC1 : ClientState := { newClient with stopped := true, queue := [⟨ON_TRADE, some 7⟩] }

/-- Stopped client with a drained channel, for the C1 witness. -/
def exC1e : ClientState := { newClient with stopped := true }

/-- Client with a Trade then a Connected event queued, for the C2
witness. -/
def exC2 : ClientState :=
  { newClient with queue := [⟨ON_TRADE, some 5⟩, ⟨ON_CONNECTED, none⟩] }

/-- Client with one queued Trade event, for the C3 witness. -/
def exC3 : ClientState := { newClient with queue := [⟨ON_TRADE, some 9⟩] }

/-- Client with an existing worker thread, for the C7 witness. -/
def exC7 : ClientState := { newClient with threadExists := true }

/-- One step of the client as drivable from outside: a public call
(`start`, `stop`, `join`, `dispatch`), a queue push by the worker
thread, or the worker thread exiting. -/
inductive Step : ClientState → ClientState → Prop where
  | startStep (s : ClientState) (env : InitEnv) : Step s (start s env).1
  | stopStep (s : ClientState) (r : Bool) : Step s (stop s r)
  | joinStep (s : ClientState) : Step s (join s)
  | dispatchStep (s : ClientState) (atts : List Attempt) (b : Bool) (t : ClientState) :
      dispatch s atts = some (b, t) → Step s t
  | pushStep (s : ClientState) (e : Event) : Step s { s with queue := s.queue ++ [e] }
  | threadDiesStep (s : ClientState) : Step s { s with threadAlive := false }

/-- Reachability through any sequence of externally drivable steps. -/
def Reachable : ClientState → ClientState → Prop := Relation.ReflTransGen Step

/-- Environment of a successful first `start()`: connect succeeds and
the worker pushes the Connected event. -/
def startEnvW : InitEnv := ⟨false, [[⟨ON_CONNECTED, none⟩]]⟩

/-- The client after that successful `start()`. -/
def startedClient : ClientState := (start newClient startEnvW).1

/-- Filtered dispatch leaves the Stopped flag alone. -/
theorem dispatchConnectedOnly_stopped (s : ClientState) :
    ((dispatchConnectedOnly s).2).stopped = s.stopped := by
  rcases hq : s.queue with _ | ⟨e, rest⟩ <;>
    simp [dispatchConnectedOnly, hq, onConnected] <;> split <;> rfl

/-- Filtered dispatch leaves the reconnection flag alone. -/
theorem dispatchConnectedOnly_enable (s : ClientState) :
    ((dispatchConnectedOnly s).2).enableReconnection = s.enableReconnection := by
  rcases hq : s.queue with _ | ⟨e, rest⟩ <;>
    simp [dispatchConnectedOnly, hq, onConnected] <;> split <;> rfl

/-- The wait loop leaves the Stopped flag alone. -/
theorem waitLoop_stopped (steps : List (List Event)) (s : ClientState) :
    (waitLoop s steps).stopped = s.stopped := by
  induction steps generalizing s with
  | nil => unfold waitLoop; split <;> rfl
  | cons pushes rest ih =>
    unfold waitLoop; split
    · rfl
    · rw [ih, dispatchConnectedOnly_stopped]

/-- The wait loop leaves the reconnection flag alone. -/
theorem waitLoop_enable (steps : List (List Event)) (s : ClientState) :
    (waitLoop s steps).enableReconnection = s.enableReconnection := by
  induction steps generalizing s with
  | nil => unfold waitLoop; split <;> rfl
  | cons pushes rest ih =>
    unfold waitLoop; split
    · rfl
    · rw [ih, dispatchConnectedOnly_enable]

/-- Initialization leaves the Stopped flag alone. -/
theorem initializeClient_stopped (s : ClientState) (env : InitEnv) :
    ((initializeClient s env).1).stopped = s.stopped := by
  unfold initializeClient; split
  · rfl
  · exact waitLoop_stopped _ _

/-- Initialization leaves the reconnection flag alone. -/
theorem initializeClient_enable (s : ClientState) (env : InitEnv) :
    ((initializeClient s env).1).enableReconnection = s.enableReconnection := by
  unfold initializeClient; split
  · rfl
  · exact waitLoop_enable _ _

/-- The value `__initializeClient` returns is its final
`initializationOk` field. -/
theorem initializeClient_snd (s : ClientState) (env : InitEnv) :
    (initializeClient s env).2 = ((initializeClient s env).1).initializationOk := by
  unfold initializeClient; split <;> rfl

/-- Filtered dispatch's effect on the `initializationOk` field and the
queue depends only on those two components of the state. -/
theorem dispatchConnectedOnly_congr (s t : ClientState)
    (hio : s.initializationOk = t.initializationOk) (hq : s.queue = t.queue) :
    ((dispatchConnectedOnly s).2).initializationOk
        = ((dispatchConnectedOnly t).2).initializationOk ∧
      ((dispatchConnectedOnly s).2).queue = ((dispatchConnectedOnly t).2).queue := by
  rcases hqs : s.queue with _ | ⟨e, rest⟩
  · have hqt : t.queue = [] := by rw [← hq, hqs]
    simp [dispatchConnectedOnly, hqs, hqt, hio]
  · have hqt : t.queue = e :: rest := by rw [← hq, hqs]
    by_cases he : e.eventType = ON_CONNECTED
    · simp [dispatchConnectedOnly, hqs, hqt, he, onConnected]
    · simp [dispatchConnectedOnly, hqs, hqt, he, hio]

/-- The wait loop with no iterations left exits with the
`initializationOk` it entered with. -/
theorem waitLoop_nil_initOk (s : ClientState) :
    (waitLoop s []).initializationOk = s.initializationOk := by
  unfold waitLoop; split <;> rfl

/-- The wait loop's final `initializationOk` depends only on the initial
`initializationOk` and queue. -/
theorem waitLoop_initOk_congr (steps : List (List Event)) (s t : ClientState)
    (hio : s.initializationOk = t.initializationOk) (hq : s.queue = t.queue) :
    (waitLoop s steps).initializationOk = (waitLoop t steps).initializationOk := by
  induction steps generalizing s t with
  | nil => rw [waitLoop_nil_initOk, waitLoop_nil_initOk, hio]
  | cons pushes rest ih =>
    unfold waitLoop
    by_cases h : s.initializationOk ≠ none
    · have ht : t.initializationOk ≠ none := hio ▸ h
      rw [if_pos h, if_pos ht]
      exact hio
    · have ht : ¬t.initializationOk ≠ none := by rw [← hio]; exact h
      rw [if_neg h, if_neg ht]
      have hc := dispatchConnectedOnly_congr { s with queue := s.queue ++ pushes }
        { t with queue := t.queue ++ pushes } hio (by simpa using hq)
      exact ih _ _ hc.1 hc.2

/-- The result `__initializeClient` returns depends only on its
environment, not on the prior client state. -/
theorem initializeClient_snd_congr (s t : ClientState) (env : InitEnv) :
    (initializeClient s env).2 = (initializeClient t env).2 := by
  unfold initializeClient; split
  · rfl
  · exact waitLoop_initOk_congr _ _ _ rfl rfl

/-- Appending lists free of Connected events. -/
theorem noConnected_append {xs ys : List Event} (hx : noConnected xs)
    (hy : noConnected ys) : noConnected (xs ++ ys) := by
  intro e he
  rcases List.mem_append.1 he with h | h
  · exact hx e h
  · exact hy e h

/-- Filtered dispatch on a queue without a Connected event cannot set
`initializationOk`, and leaves a queue without a Connected event. -/
theorem dispatchConnectedOnly_no_connected (s : ClientState)
    (hio : s.initializationOk = none) (hq : noConnected s.queue) :
    ((dispatchConnectedOnly s).2).initializationOk = none ∧
      noConnected ((dispatchConnectedOnly s).2).queue := by
  rcases hqs : s.queue with _ | ⟨e, rest⟩
  · refine ⟨by simp [dispatchConnectedOnly, hqs, hio], ?_⟩
    simp only [dispatchConnectedOnly, hqs]
    intro e he
    exact absurd he (List.not_mem_nil e)
  · have he : e.eventType ≠ ON_CONNECTED := hq e (by rw [hqs]; exact List.mem_cons_self e rest)
    refine ⟨by simp [dispatchConnectedOnly, hqs, he, hio], ?_⟩
    simp only [dispatchConnectedOnly, hqs]
    rw [if_neg (by simpa using he)]
    intro x hx
    exact hq x (by rw [hqs]; exact List.mem_cons_of_mem e hx)

/-- If no Connected event is ever pushed, the wait loop ends with
`initializationOk` still None. -/
theorem waitLoop_no_connected (steps : List (List Event)) (s : ClientState)
    (hio : s.initializationOk = none) (hq : noConnected s.queue)
    (hs : ∀ ps ∈ steps, noConnected ps) :
    (waitLoop s steps).initializationOk = none := by
  induction steps generalizing s with
  | nil => rw [waitLoop_nil_initOk]; exact hio
  | cons pushes rest ih =>
    unfold waitLoop
    rw [if_neg (by simp [hio])]
    have hq1 : noConnected ({ s with queue := s.queue ++ pushes } : ClientState).queue :=
      noConnected_append hq (hs pushes (List.mem_cons_self pushes rest))
    have hc := dispatchConnectedOnly_no_connected { s with queue := s.queue ++ pushes } hio hq1
    exact ih _ hc.1 hc.2 (fun ps hps => hs ps (List.mem_cons_of_mem pushes hps))

/-- An attempt's `__initializeClient` result is `attemptResult`, whatever
the client state going in. -/
theorem attemptResult_eq (s : ClientState) (a : Attempt) :
    (initializeClient s ⟨a.connectThrows, a.steps⟩).2 = attemptResult a :=
  initializeClient_snd_congr s newClient _

/-- A concurrent stop's flag write does not touch `initializationOk`. -/
theorem applySignal_initOk (a : Attempt) (s : ClientState) :
    (applySignal a s).initializationOk = s.initializationOk := by
  unfold applySignal; split <;> rfl

/-- Starting from an unstopped state, the flag after the boundary is the
concurrent stop's signal. -/
theorem applySignal_stopped_of (a : Attempt) (s : ClientState) (h : s.stopped = false) :
    (applySignal a s).stopped = a.stopSignal := by
  cases hsig : a.stopSignal <;> simp [applySignal, hsig, h]

/-- When the Stopped flag is already set, the retry loop exits at once,
without an attempt and without raising. -/
theorem reconnectLoop_of_stopped (s : ClientState) (atts : List Attempt)
    (h : s.stopped = true) : reconnectLoop s atts = some (s, 0) := by
  cases atts <;> simp [reconnectLoop, h]

/-- The retry loop exits only because the Stopped flag was observed at a
boundary or because an attempt succeeded. -/
theorem reconnectLoop_exit_reason (atts : List Attempt) (s : ClientState)
    (p : ClientState × Nat) (h : reconnectLoop s atts = some p) :
    p.1.stopped = true ∨ p.1.initializationOk = some true := by
  induction atts generalizing s p with
  | nil =>
    unfold reconnectLoop at h
    by_cases hs : s.stopped = true
    · rw [if_pos hs] at h
      cases h
      exact Or.inl hs
    · rw [if_neg hs] at h
      cases h
  | cons a rest ih =>
    unfold reconnectLoop at h
    by_cases hs : s.stopped = true
    · rw [if_pos hs] at h
      cases h
      exact Or.inl hs
    · rw [if_neg hs] at h
      by_cases hr : (initializeClient s ⟨a.connectThrows, a.steps⟩).2 = some true
      · rw [if_pos hr] at h
        cases h
        refine Or.inr ?_
        rw [applySignal_initOk, ← initializeClient_snd]
        exact hr
      · rw [if_neg hr] at h
        cases hrec : reconnectLoop (applySignal a (initializeClient s ⟨a.connectThrows, a.steps⟩).1) rest with
        | none => rw [hrec] at h; cases h
        | some q =>
          rw [hrec] at h
          cases h
          exact ih _ q hrec

/-- The retry loop is still running when the modelled environment runs
out exactly when the flag was clear at entry and every modelled attempt
failed with no concurrent stop: with such an environment extended
forever, the loop retries forever (there is no retry bound). -/
theorem reconnectLoop_none_iff (atts : List Attempt) (s : ClientState) :
    reconnectLoop s atts = none ↔
      s.stopped = false ∧ ∀ a ∈ atts, attemptResult a ≠ some true ∧ a.stopSignal = false := by
  induction atts generalizing s with
  | nil => cases hsv : s.stopped <;> simp [reconnectLoop, hsv]
  | cons a rest ih =>
    cases hsv : s.stopped with
    | true => simp [reconnectLoop, hsv]
    | false =>
      unfold reconnectLoop
      rw [if_neg (by simp [hsv])]
      by_cases hr : (initializeClient s ⟨a.connectThrows, a.steps⟩).2 = some true
      · rw [if_pos hr]
        constructor
        · intro habs; cases habs
        · rintro ⟨-, hall⟩
          have hra : attemptResult a = some true := attemptResult_eq s a ▸ hr
          exact ((hall a (List.mem_cons_self a rest)).1 hra).elim
      · rw [if_neg hr]
        have hp1 : ((initializeClient s ⟨a.connectThrows, a.steps⟩).1).stopped = false := by
          rw [initializeClient_stopped]; exact hsv
        cases hrec : reconnectLoop (applySignal a (initializeClient s ⟨a.connectThrows, a.steps⟩).1) rest with
        | none =>
          obtain ⟨hstop2, hall⟩ := (ih _).mp hrec
          have hsig : a.stopSignal = false := by
            rw [← applySignal_stopped_of a _ hp1]
            exact hstop2
          constructor
          · intro _
            refine ⟨rfl, fun x hx => ?_⟩
            rcases List.mem_cons.1 hx with rfl | hx2
            · exact ⟨by rw [← attemptResult_eq s x]; exact hr, hsig⟩
            · exact hall x hx2
          · intro _; rfl
        | some q =>
          constructor
          · intro habs; cases habs
          · rintro ⟨-, hall⟩
            have hs2 : (applySignal a (initializeClient s ⟨a.connectThrows, a.steps⟩).1).stopped = false := by
              rw [applySignal_stopped_of a _ hp1]
              exact (hall a (List.mem_cons_self a rest)).2
            have hnone : reconnectLoop (applySignal a (initializeClient s ⟨a.connectThrows, a.steps⟩).1) rest = none :=
              (ih _).mpr ⟨hs2, fun x hx => hall x (List.mem_cons_of_mem a hx)⟩
            rw [hnone] at hrec
            cases hrec

/-- After any number of failed attempts with no concurrent stop, a
succeeding attempt makes the loop exit initialized, having slept exactly
5 seconds per failed attempt. -/
theorem reconnectLoop_success (fails : List Attempt) (a : Attempt) (s : ClientState)
    (hs : s.stopped = false)
    (hf : ∀ b ∈ fails, attemptResult b ≠ some true ∧ b.stopSignal = false)
    (hra : attemptResult a = some true) (hsa : a.stopSignal = false) :
    ∃ s2 : ClientState, reconnectLoop s (fails ++ [a]) = some (s2, 5 * fails.length) ∧
      s2.initializationOk = some true ∧ s2.stopped = false := by
  induction fails generalizing s with
  | nil =>
    rw [List.nil_append]
    unfold reconnectLoop
    rw [if_neg (by simp [hs])]
    have hr : (initializeClient s ⟨a.connectThrows, a.steps⟩).2 = some true :=
      (attemptResult_eq s a).trans hra
    rw [if_pos hr]
    refine ⟨applySignal a (initializeClient s ⟨a.connectThrows, a.steps⟩).1, by simp, ?_, ?_⟩
    · rw [applySignal_initOk, ← initializeClient_snd]
      exact hr
    · rw [applySignal_stopped_of a _ (by rw [initializeClient_stopped]; exact hs)]
      exact hsa
  | cons b fails ih =>
    rw [List.cons_append]
    unfold reconnectLoop
    rw [if_neg (by simp [hs])]
    have hrb : ¬(initializeClient s ⟨b.connectThrows, b.steps⟩).2 = some true := by
      rw [attemptResult_eq]
      exact (hf b (List.mem_cons_self b fails)).1
    rw [if_neg hrb]
    have hs2 : (applySignal b (initializeClient s ⟨b.connectThrows, b.steps⟩).1).stopped = false := by
      rw [applySignal_stopped_of b _ (by rw [initializeClient_stopped]; exact hs)]
      exact (hf b (List.mem_cons_self b fails)).2
    obtain ⟨s3, hrec, hio3, hst3⟩ :=
      ih (applySignal b (initializeClient s ⟨b.connectThrows, b.steps⟩).1) hs2
        (fun x hx => hf x (List.mem_cons_of_mem b hx))
    rw [hrec]
    exact ⟨s3, by simp [List.length_cons, Nat.mul_succ], hio3, hst3⟩

/-- The general `__dispatchImpl` at the filter `[ON_CONNECTED]` (the
only filtered form the source uses) agrees with its specialization
`dispatchConnectedOnly`, and in particular always terminates: the
filter shields the Disconnected handler, so no recursion is entered. -/
theorem dispatchImpl_connected_only (s : ClientState) (atts : List Attempt) :
    dispatchImpl (some [ON_CONNECTED]) s atts = some (dispatchConnectedOnly s) := by
  rcases hq : s.queue with _ | ⟨e, rest⟩
  · simp [dispatchImpl, dispatchConnectedOnly, hq]
  · by_cases he : e.eventType = ON_CONNECTED
    · simp [dispatchImpl, dispatchConnectedOnly, routeEvent, hq, he, onConnected,
        ON_TRADE, ON_ORDER_BOOK_UPDATE, ON_CONNECTED]
    · simp [dispatchImpl, dispatchConnectedOnly, hq, he]

/-- C1 counterexample: `eof()` is true (the Stopped flag is set), yet the
next `dispatch()` call still returns true and delivers the queued Trade
payload to the trade subscribers — `__dispatchImpl` never consults the
Stopped flag, so the claim's "no further events are ever dispatched,
regardless of what events remain queued" is false on the code. -/
theorem C1_counterexample :
    eof exC1 = true ∧
      dispatch exC1 [] = some (true, { exC1 with queue := [], trades := [some 7] }) := by
  exact ⟨rfl, by decide⟩

/-- C1 (amended): `eof()` returns true exactly when the Stopped flag is
set, but `dispatch()` does not consult the flag; only once the channel
is also empty does every subsequent `dispatch()` return false with the
state unchanged, so that no payload is ever again delivered. -/
theorem C1_eof_empty_no_dispatch (s : ClientState) (atts : List Attempt)
    (heof : eof s = true) (hq : s.queue = []) :
    (eof s = true ↔ s.stopped = true) ∧ dispatch s atts = some (false, s) :=
  ⟨Iff.rfl, by simp [dispatch, dispatchImpl, hq]⟩

/-- Witness for the amended C1 at a concrete stopped, drained client. -/
theorem C1_witness :
    (eof exC1e = true ↔ exC1e.stopped = true) ∧ dispatch exC1e [] = some (false, exC1e) :=
  C1_eof_empty_no_dispatch exC1e [] rfl rfl

/-- C2: a filtered dispatch that pops a non-matching event removes it
from the channel, discards its payload without requeuing it or touching
any other field, and returns "no event processed" (false); since the
resulting queue is exactly the tail, the event is never observable by a
later dispatch call. -/
theorem C2_filtered_event_consumed (s : ClientState) (atts : List Attempt)
    (f : List Nat) (e : Event) (rest : List Event)
    (hq : s.queue = e :: rest) (hf : e.eventType ∉ f) :
    dispatchImpl (some f) s atts = some (false, { s with queue := rest }) := by
  simp [dispatchImpl, hq, hf]

/-- Witness for C2: the Connected-only filter pops and discards a queued
Trade event. -/
theorem C2_witness :
    (⟨ON_TRADE, some 5⟩ : Event).eventType ∉ [ON_CONNECTED] ∧
      dispatchImpl (some [ON_CONNECTED]) exC2 [] =
        some (false, { exC2 with queue := [⟨ON_CONNECTED, none⟩] }) :=
  ⟨by decide,
   C2_filtered_event_consumed exC2 [] [ON_CONNECTED] ⟨ON_TRADE, some 5⟩
     [⟨ON_CONNECTED, none⟩] rfl (by decide)⟩

/-- C3: `dispatch()` returns true exactly when the popped event reached
a handler — a Trade event is routed to the trade subscribers, an
OrderBookUpdate event to the order-book subscribers, a Connected event
to the initialization-succeeded transition, a Disconnected event to the
reconnection/stop handling (returning true whenever that handler
finishes); an event of unrecognized kind is consumed and returns false,
and a pop that times out on an empty channel returns false. -/
theorem C3_dispatch_routes (s : ClientState) (atts : List Attempt) :
    (s.queue = [] → dispatch s atts = some (false, s)) ∧
    (∀ e rest, s.queue = e :: rest →
      (e.eventType = ON_TRADE →
        dispatch s atts =
          some (true, { s with queue := rest, trades := s.trades ++ [e.eventData] })) ∧
      (e.eventType = ON_ORDER_BOOK_UPDATE →
        dispatch s atts =
          some (true, { s with queue := rest, orderBooks := s.orderBooks ++ [e.eventData] })) ∧
      (e.eventType = ON_CONNECTED →
        dispatch s atts = some (true, { s with queue := rest, initializationOk := some true })) ∧
      (e.eventType = ON_DISCONNECTED → ∀ s2 n,
        onDisconnected { s with queue := rest } atts = some (s2, n) →
        dispatch s atts = some (true, s2)) ∧
      (e.eventType ∉ [ON_TRADE, ON_ORDER_BOOK_UPDATE, ON_CONNECTED, ON_DISCONNECTED] →
        dispatch s atts = some (false, { s with queue := rest }))) := by
  constructor
  · intro hq
    simp [dispatch, dispatchImpl, hq]
  · intro e rest hq
    refine ⟨?_, ?_, ?_, ?_, ?_⟩
    · intro he
      simp [dispatch, dispatchImpl, routeEvent, hq, he]
    · intro he
      simp [dispatch, dispatchImpl, routeEvent, hq, he,
        ON_TRADE, ON_ORDER_BOOK_UPDATE]
    · intro he
      simp [dispatch, dispatchImpl, routeEvent, hq, he, onConnected,
        ON_TRADE, ON_ORDER_BOOK_UPDATE, ON_CONNECTED]
    · intro he s2 n hd
      simp [dispatch, dispatchImpl, routeEvent, hq, he, hd,
        ON_TRADE, ON_ORDER_BOOK_UPDATE, ON_CONNECTED, ON_DISCONNECTED]
    · intro he
      have h4 : e.eventType ≠ ON_TRADE ∧ e.eventType ≠ ON_ORDER_BOOK_UPDATE ∧
          e.eventType ≠ ON_CONNECTED ∧ e.eventType ≠ ON_DISCONNECTED := by
        refine ⟨fun h => he ?_, fun h => he ?_, fun h => he ?_, fun h => he ?_⟩ <;> simp [h]
      simp [dispatch, dispatchImpl, routeEvent, hq, h4.1, h4.2.1, h4.2.2.1, h4.2.2.2]

/-- Witness for C3: a queued Trade event is delivered and returns true;
an empty channel returns false. -/
theorem C3_witness :
    dispatch exC3 [] =
        some (true, { exC3 with queue := [], trades := exC3.trades ++ [some 9] }) ∧
      dispatch newClient [] = some (false, newClient) :=
  ⟨((C3_dispatch_routes exC3 []).2 ⟨ON_TRADE, some 9⟩ [] rfl).1 rfl,
   (C3_dispatch_routes newClient []).1 rfl⟩

/-- C7: calling `start()` while a worker thread exists fails with
AlreadyRunning and returns the state entirely unchanged (no field is
modified). -/
theorem C7_already_running_no_side_effects (s : ClientState) (env : InitEnv)
    (h : s.threadExists = true) :
    start s env = (s, some StartError.alreadyRunning) := by
  simp [start, h]

/-- Witness for C7 at a concrete running client. -/
theorem C7_witness :
    start exC7 ⟨true, []⟩ = (exC7, some StartError.alreadyRunning) :=
  C7_already_running_no_side_effects exC7 ⟨true, []⟩ rfl

/-- C8: on every detected disconnection the worker attempts the local
shutdown (whose failure is swallowed) and then unconditionally pushes
exactly one Disconnected event — the same single event is appended
whether or not the shutdown attempt raised. -/
theorem C8_disconnection_pushes_once (q : List Event) (raises : Bool) :
    onDisconnectionDetected q raises = q ++ [⟨ON_DISCONNECTED, none⟩] ∧
      (onDisconnectionDetected q raises).countP (fun e => e.eventType == ON_DISCONNECTED)
        = q.countP (fun e => e.eventType == ON_DISCONNECTED) + 1 := by
  cases raises <;>
    exact ⟨rfl, by simp [onDisconnectionDetected, stopClientCall,
      List.countP_append, ON_DISCONNECTED]⟩

/-- C4: a Disconnected event with reconnection disabled unconditionally
stops the client; with reconnection enabled it runs the retry loop,
which performs the same `__initializeClient` procedure `start()` uses,
exits exactly when an attempt succeeds or the Stopped flag is observed
at a loop boundary (and in no other way), keeps retrying as long as
attempts fail with no stop (no maximum retry count: `none` means the
loop outlived the whole modelled environment), and sleeps exactly 5
seconds after each failed attempt. The loop is a total function into
plain states — no exception escapes it. -/
theorem C4_disconnected_policy :
    (∀ (s : ClientState) (atts : List Attempt), s.enableReconnection = false →
      onDisconnected s atts = some ({ s with stopped := true }, 0)) ∧
    (∀ (s : ClientState) (atts : List Attempt), s.enableReconnection = true →
      onDisconnected s atts = reconnectLoop s atts) ∧
    (∀ (s : ClientState) (atts : List Attempt) (p : ClientState × Nat),
      reconnectLoop s atts = some p →
      p.1.stopped = true ∨ p.1.initializationOk = some true) ∧
    (∀ (s : ClientState) (atts : List Attempt),
      reconnectLoop s atts = none ↔
        s.stopped = false ∧ ∀ a ∈ atts, attemptResult a ≠ some true ∧ a.stopSignal = false) ∧
    (∀ (s : ClientState) (fails : List Attempt) (a : Attempt), s.stopped = false →
      (∀ b ∈ fails, attemptResult b ≠ some true ∧ b.stopSignal = false) →
      attemptResult a = some true → a.stopSignal = false →
      ∃ s2 : ClientState, reconnectLoop s (fails ++ [a]) = some (s2, 5 * fails.length) ∧
        s2.initializationOk = some true ∧ s2.stopped = false) :=
  ⟨fun s atts h => by simp [onDisconnected, h],
   fun s atts h => by simp [onDisconnected, h],
   fun s atts p h => reconnectLoop_exit_reason atts s p h,
   fun s atts => reconnectLoop_none_iff atts s,
   fun s fails a h1 h2 h3 h4 => reconnectLoop_success fails a s h1 h2 h3 h4⟩

/-- Witness for C4: reconnection disabled stops at once; with one failed
attempt (connect throws) then a succeeding one (the worker pushes
Connected), the loop exits initialized after sleeping 5 seconds. -/
theorem C4_witness :
    onDisconnected newClient [] = some ({ newClient with stopped := true }, 0) ∧
      ∃ s2 : ClientState,
        reconnectLoop newClient
            [⟨false, true, []⟩, ⟨false, false, [[⟨ON_CONNECTED, none⟩]]⟩] =
          some (s2, 5 * [(⟨false, true, []⟩ : Attempt)].length) ∧
        s2.initializationOk = some true ∧ s2.stopped = false :=
  ⟨C4_disconnected_policy.1 newClient [] rfl,
   C4_disconnected_policy.2.2.2.2 newClient [⟨false, true, []⟩]
     ⟨false, false, [[⟨ON_CONNECTED, none⟩]]⟩ rfl (by decide) (by decide) rfl⟩

/-- C5: when a worker thread does not already exist and initialization
fails — the connect call throws, or (connect succeeding) no Connected
event is ever pushed before the worker thread dies — `start()` fails
with InitializationFailed, the state becomes Stopped, and `eof()`
subsequently returns true. -/
theorem C5_initialization_failure :
    (∀ (s : ClientState) (env : InitEnv), s.threadExists = false →
      env.connectThrows = true →
      (start s env).2 = some StartError.initializationFailed ∧
        ((start s env).1).stopped = true ∧ eof (start s env).1 = true) ∧
    (∀ (s : ClientState) (env : InitEnv), s.threadExists = false →
      env.connectThrows = false →
      (∀ ps ∈ env.steps, ∀ e ∈ ps, e.eventType ≠ ON_CONNECTED) →
      (start s env).2 = some StartError.initializationFailed ∧
        ((start s env).1).stopped = true ∧ eof (start s env).1 = true) := by
  constructor
  · intro s env h1 h2
    have hio : (initializeClient s env).2 = some false := by
      simp [initializeClient, h2]
    have hstart : start s env =
        ({ (initializeClient s env).1 with stopped := true },
          some StartError.initializationFailed) := by
      simp [start, h1, hio]
    rw [hstart]
    exact ⟨rfl, rfl, rfl⟩
  · intro s env h1 h2 h3
    have hio : (initializeClient s env).2 = none := by
      simp only [initializeClient, h2, Bool.false_eq_true, if_false]
      exact waitLoop_no_connected env.steps _ rfl
        (fun e he => absurd he (List.not_mem_nil e)) h3
    have hstart : start s env =
        ({ (initializeClient s env).1 with stopped := true },
          some StartError.initializationFailed) := by
      simp [start, h1, hio]
    rw [hstart]
    exact ⟨rfl, rfl, rfl⟩

/-- Witness for C5: a throwing connect, and a connect whose worker dies
having pushed only a Trade event; both fail `start()` and leave
`eof() = true`. -/
theorem C5_witness :
    ((start newClient ⟨true, []⟩).2 = some StartError.initializationFailed ∧
        ((start newClient ⟨true, []⟩).1).stopped = true ∧
        eof (start newClient ⟨true, []⟩).1 = true) ∧
      ((start newClient ⟨false, [[⟨ON_TRADE, some 3⟩]]⟩).2 =
          some StartError.initializationFailed ∧
        ((start newClient ⟨false, [[⟨ON_TRADE, some 3⟩]]⟩).1).stopped = true ∧
        eof (start newClient ⟨false, [[⟨ON_TRADE, some 3⟩]]⟩).1 = true) :=
  ⟨C5_initialization_failure.1 newClient ⟨true, []⟩ rfl rfl,
   C5_initialization_failure.2 newClient ⟨false, [[⟨ON_TRADE, some 3⟩]]⟩ rfl rfl (by decide)⟩

/-- The net effect of `Client.stop` is exactly setting the Stopped flag:
the shutdown request touches no client state and its exception is
swallowed. -/
theorem stop_eq (s : ClientState) (r : Bool) : stop s r = { s with stopped := true } := by
  cases r <;> by_cases h : ({ s with stopped := true } : ClientState).threadExists
      && ({ s with stopped := true } : ClientState).threadAlive <;>
    simp [stop, stopBody, stopClientCall, h]

/-- C6: `stop()` never raises (the body's only exception is caught: its
result is the flagged state whether the shutdown request succeeded or
raised), is idempotent, sets the Stopped flag before any shutdown
request, leaves `eof() = true` afterwards, and a reconnection retry loop
running when the flag is set exits at its next boundary check without
raising. -/
theorem C6_stop_never_raises_idempotent :
    (∀ (s : ClientState) (r : Bool), stop s r = { s with stopped := true }) ∧
    (∀ (s : ClientState) (r r2 : Bool), stop (stop s r) r2 = stop s r) ∧
    (∀ (s : ClientState) (r : Bool), eof (stop s r) = true) ∧
    (∀ (s : ClientState) (r : Bool),
      stopBody s r = Except.ok { s with stopped := true } ∨
        stopBody s r = Except.error ("error shutting down client", { s with stopped := true })) ∧
    (∀ s : ClientState, List.head? (stopActions s) = some StopAction.setStopped) ∧
    (∀ (s : ClientState) (atts : List Attempt), s.stopped = true →
      reconnectLoop s atts = some (s, 0)) := by
  refine ⟨stop_eq, ?_, ?_, ?_, ?_, ?_⟩
  · intro s r r2
    simp [stop_eq]
  · intro s r
    simp [eof, stop_eq]
  · intro s r
    cases r <;> by_cases h : ({ s with stopped := true } : ClientState).threadExists
        && ({ s with stopped := true } : ClientState).threadAlive <;>
      simp [stopBody, stopClientCall, h]
  · intro s
    rfl
  · intro s atts h
    exact reconnectLoop_of_stopped s atts h

/-- Witness for C6 at a concrete client: two stops in a row, a raising
shutdown request, and a retry loop entered with the flag set. -/
theorem C6_witness :
    stop exC7 true = { exC7 with stopped := true } ∧
      stop (stop exC7 true) false = stop exC7 true ∧
      eof (stop exC7 true) = true ∧
      reconnectLoop { exC7 with stopped := true } [⟨false, true, []⟩] =
        some ({ exC7 with stopped := true }, 0) :=
  ⟨C6_stop_never_raises_idempotent.1 exC7 true,
   C6_stop_never_raises_idempotent.2.1 exC7 true false,
   C6_stop_never_raises_idempotent.2.2.1 exC7 true,
   C6_stop_never_raises_idempotent.2.2.2.2.2 { exC7 with stopped := true }
     [⟨false, true, []⟩] rfl⟩

/-- C9 counterexample: the server response `1` (JSON number one) is not
the acknowledgment value True, yet `cancelOrder` returns normally —
Python's `json_response != True` compares `1 == True` as equal, so the
claim's "raises when the response is anything other than True" is false
on the code. -/
theorem C9_counterexample :
    cancelOrder (JValue.jint 1) = Except.ok () ∧ JValue.jint 1 ≠ JValue.jbool true :=
  ⟨rfl, fun h => JValue.noConfusion h⟩

/-- C9 (amended): `cancelOrder` raises when the JSON response is an
object carrying a non-null error field; it returns normally exactly when
the response is Python-equal to True (the boolean true or a number equal
to 1), and raises in every other case. -/
theorem C9_cancelOrder_amended (resp : JValue) :
    (cancelOrder resp = Except.ok () ↔ pythonEqTrue resp = true) ∧
    (∀ entries, resp = JValue.jdict entries →
      pyIsNotNone (jsonGet entries "error") = true →
      cancelOrder resp = Except.error "server error") := by
  constructor
  · cases resp with
    | jnull => simp [cancelOrder, post, pythonEqTrue]
    | jbool b => cases b <;> simp [cancelOrder, post, pythonEqTrue]
    | jint n => by_cases hn : n = 1 <;> simp [cancelOrder, post, pythonEqTrue, hn]
    | jstr str => simp [cancelOrder, post, pythonEqTrue]
    | jlist xs => simp [cancelOrder, post, pythonEqTrue]
    | jdict entries =>
      cases hget : pyIsNotNone (jsonGet entries "error") <;>
        simp [cancelOrder, post, pythonEqTrue, hget]
  · intro entries hresp hget
    subst hresp
    simp [cancelOrder, post, hget]

/-- Witness for the amended C9: a True acknowledgment succeeds; an error
object raises the server error. -/
theorem C9_witness :
    cancelOrder (JValue.jbool true) = Except.ok () ∧
      cancelOrder (JValue.jdict [("error", JValue.jstr "err")]) =
        Except.error "server error" :=
  ⟨(C9_cancelOrder_amended (JValue.jbool true)).1.mpr rfl,
   (C9_cancelOrder_amended (JValue.jdict [("error", JValue.jstr "err")])).2
     [("error", JValue.jstr "err")] rfl (by decide)⟩

/-- With reconnection disabled (the only configuration this code can
produce — nothing ever sets the flag), a dispatch call preserves the
flag and never touches the thread reference. -/
theorem dispatch_preserves (s : ClientState) (atts : List Attempt) (b : Bool)
    (t : ClientState) (h : dispatch s atts = some (b, t))
    (he : s.enableReconnection = false) :
    t.enableReconnection = false ∧ t.threadExists = s.threadExists := by
  rcases hq : s.queue with _ | ⟨e, rest⟩
  · simp [dispatch, dispatchImpl, hq] at h
    rw [← h.2]
    exact ⟨he, rfl⟩
  · have hr : routeEvent e { s with queue := rest } atts = some (b, t) := by
      simpa [dispatch, dispatchImpl, hq] using h
    by_cases h1 : e.eventType = ON_TRADE
    · simp [routeEvent, h1] at hr
      rw [← hr.2]
      exact ⟨he, rfl⟩
    by_cases h2 : e.eventType = ON_ORDER_BOOK_UPDATE
    · simp [routeEvent, h1, h2, ON_TRADE, ON_ORDER_BOOK_UPDATE] at hr
      rw [← hr.2]
      exact ⟨he, rfl⟩
    by_cases h3 : e.eventType = ON_CONNECTED
    · simp [routeEvent, h1, h2, h3, onConnected,
        ON_TRADE, ON_ORDER_BOOK_UPDATE, ON_CONNECTED] at hr
      rw [← hr.2]
      exact ⟨he, rfl⟩
    by_cases h4 : e.eventType = ON_DISCONNECTED
    · have hd : onDisconnected { s with queue := rest } atts =
          some ({ s with queue := rest, stopped := true }, 0) := by
        simp [onDisconnected, he]
      simp [routeEvent, h1, h2, h3, h4, hd,
        ON_TRADE, ON_ORDER_BOOK_UPDATE, ON_CONNECTED, ON_DISCONNECTED] at hr
      rw [← hr.2]
      exact ⟨he, rfl⟩
    · simp [routeEvent, h1, h2, h3, h4] at hr
      rw [← hr.2]
      exact ⟨he, rfl⟩

/-- Any single externally drivable step preserves a cleared
reconnection flag and never clears the thread reference. -/
theorem step_inv (s t : ClientState) (h : Step s t)
    (he : s.enableReconnection = false) :
    t.enableReconnection = false ∧ (s.threadExists = true → t.threadExists = true) := by
  cases h with
  | startStep env =>
    by_cases ht : s.threadExists = true
    · have h1 : (start s env).1 = s := by simp [start, ht]
      rw [h1]
      exact ⟨he, fun hx => hx⟩
    · refine ⟨?_, fun hx => absurd hx ht⟩
      have hen : ((start s env).1).enableReconnection = s.enableReconnection := by
        by_cases hp : (initializeClient s env).2 = some true <;>
          simp [start, ht, hp, initializeClient_enable]
      rw [hen]
      exact he
  | stopStep r =>
    rw [stop_eq]
    exact ⟨he, fun hx => hx⟩
  | joinStep => exact ⟨he, fun hx => hx⟩
  | dispatchStep atts b t hd =>
    have hp := dispatch_preserves s atts b t hd he
    exact ⟨hp.1, fun hx => hp.2 ▸ hx⟩
  | pushStep e => exact ⟨he, fun hx => hx⟩
  | threadDiesStep => exact ⟨he, fun hx => hx⟩

/-- Along any reachable run the reconnection flag stays cleared and the
thread reference, once set, stays set. -/
theorem reachable_inv (s t : ClientState) (h : Reachable s t)
    (he : s.enableReconnection = false) :
    t.enableReconnection = false ∧ (s.threadExists = true → t.threadExists = true) := by
  induction h with
  | refl => exact ⟨he, fun hx => hx⟩
  | tail _ hbc ih =>
    have hstep := step_inv _ _ hbc ih.1
    exact ⟨hstep.1, fun hx => hstep.2 (ih.2 hx)⟩

/-- C10: the client is single-use. In any state reachable from a fresh
client (where reconnection is disabled and nothing can enable it), once
a worker thread reference exists, no reachable sequence of `stop()`,
`join()`, dispatch calls, queue pushes or thread exit ever clears it, so
every subsequent `start()` call fails with AlreadyRunning and changes
nothing. -/
theorem C10_single_use (s t : ClientState)
    (h0 : Reachable newClient s) (hs : s.threadExists = true)
    (h1 : Reachable s t) :
    t.threadExists = true ∧ ∀ env : InitEnv, start t env = (t, some StartError.alreadyRunning) := by
  have he : s.enableReconnection = false := (reachable_inv newClient s h0 rfl).1
  have ht := reachable_inv s t h1 he
  have htex : t.threadExists = true := ht.2 hs
  refine ⟨htex, fun env => ?_⟩
  simp [start, htex]

/-- Witness for C10: after one successful `start()`, the thread
reference exists and a second `start()` fails with AlreadyRunning. -/
theorem C10_witness :
    startedClient.threadExists = true ∧
      start startedClient ⟨false, []⟩ = (startedClient, some StartError.alreadyRunning) := by
  have hreach : Reachable newClient startedClient :=
    Relation.ReflTransGen.single (Step.startStep newClient startEnvW)
  have h := C10_single_use startedClient startedClient hreach (by decide)
    Relation.ReflTransGen.refl
  exact ⟨h.1, h.2 ⟨false, []⟩⟩

end Bitstamp
